import Mathlib

/-!
Verification of the backtesting engine in `src/backtest.py`.

The engine consumes an ordered sequence of daily price bars, each carrying a
directional signal, and folds over adjacent bar pairs: the signal of bar T
opens a trade executed entirely within bar T+1 (entry at open, intraday
stop-loss against the bar's low/high, exit at stop or close), compounding a
running capital.  `compute_metrics` then aggregates the trade ledger and
equity curve into a performance report.

Prices, capital and configuration values are modelled as exact rationals;
the two metrics that need real-valued operations (annualized return via a
real power, Sharpe via square roots) live in `ℝ`, and the two metrics that
the source sets to `np.inf` on an empty denominator live in `EReal` with
`⊤` as the infinity sentinel.  Fallible source operations (the pandas
`KeyError` raised by `set_index` on an empty frame, the `IndexError` of
`iloc[-1]` on an empty series, the `ZeroDivisionError` of the unguarded
stop-out-rate division) are modelled with `Except` / `Option`.
-/

namespace Backtesting

/-- One daily price bar together with the externally attached signal value
(`ML_Signal` column); `open_` renames the source's `Open` field, which is a
reserved word in Lean. -/
structure Bar where
  date : ℤ
  open_ : ℚ
  high : ℚ
  low : ℚ
  close : ℚ
  signal : ℚ
deriving DecidableEq

/-- The `BacktestConfig` of the source (field order and names preserved;
`take_profit_pct` is `Option ℚ` because the source default is `None`). -/
structure Config where
  initial_capital : ℚ
  position_size_pct : ℚ
  stop_loss_pct : ℚ
  take_profit_pct : Option ℚ
  transaction_cost_pips : ℚ
  leverage : ℚ
deriving DecidableEq

/-- The `Trade` record of the source.  `direction` stores the raw signal
value, exactly as `run_backtest` does (`direction=signal`). -/
structure Trade where
  date : ℤ
  direction : ℚ
  entry_price : ℚ
  exit_price : ℚ
  stop_loss_price : ℚ
  pnl_usd : ℚ
  stopped_out : Bool
  position_size : ℚ
deriving DecidableEq

/-- One point of the equity curve (`{'Date': ..., 'Equity': ...}`). -/
structure EquityPoint where
  date : ℤ
  equity : ℚ
deriving DecidableEq

/-- One pip = 0.0001, as in the source. -/
def pip : ℚ := 1 / 10000

/-- The body of one iteration of the `run_backtest` loop: bar `row` carries
the signal, bar `nextRow` is the trade day.  Rational division is total
(`x / 0 = 0`); the source would raise on a zero entry price. -/
def simStep (cfg : Config) (capital : ℚ) (row nextRow : Bar) : Trade :=
  let signal := row.signal
  let entry_price := nextRow.open_
  let exit_price := nextRow.close
  let position_value := capital * cfg.position_size_pct * cfg.leverage
  let position_size := position_value / entry_price
  let transaction_cost := cfg.transaction_cost_pips * pip
  if signal = 1 then
    let stop_price := entry_price * (1 - cfg.stop_loss_pct)
    let stopped_out := decide (nextRow.low ≤ stop_price)
    let actual_exit := if stopped_out then stop_price else exit_price
    let price_move := actual_exit - entry_price - transaction_cost
    ⟨nextRow.date, signal, entry_price, actual_exit, stop_price,
      position_size * price_move, stopped_out, position_size⟩
  else
    let stop_price := entry_price * (1 + cfg.stop_loss_pct)
    let stopped_out := decide (stop_price ≤ nextRow.high)
    let actual_exit := if stopped_out then stop_price else exit_price
    let price_move := entry_price - actual_exit - transaction_cost
    ⟨nextRow.date, signal, entry_price, actual_exit, stop_price,
      position_size * price_move, stopped_out, position_size⟩

/-- The `for i in range(len(df) - 1)` loop of `run_backtest`: one trade and
one equity point per adjacent bar pair, threading the running capital. -/
def runPairs (cfg : Config) (capital : ℚ) : List Bar → List Trade × List EquityPoint
  | row :: nextRow :: rest =>
    let t := simStep cfg capital row nextRow
    let res := runPairs cfg (capital + t.pnl_usd) (nextRow :: rest)
    (t :: res.1, ⟨nextRow.date, capital + t.pnl_usd⟩ :: res.2)
  | _ => ([], [])

/-- Arithmetic mean of a list (`Series.mean`); `0` on the empty list where
pandas would give `NaN` (only consulted behind the source's own guards). -/
def listMean (xs : List ℚ) : ℚ := xs.sum / xs.length

/-- Model of `Series.pct_change().dropna()`: successive relative changes. -/
def pctChanges : List ℚ → List ℚ
  | a :: b :: rest => (b / a - 1) :: pctChanges (b :: rest)
  | _ => []

/-- Sample variance with `ddof=1` (the square of `Series.std`); `0` on lists
shorter than two where pandas yields `NaN` — the source's `std > 0` guard
rejects both cases. -/
def sampleVar (xs : List ℚ) : ℚ :=
  if xs.length ≤ 1 then 0
  else (xs.map (fun x => (x - listMean xs) ^ 2)).sum / ((xs.length : ℚ) - 1)

/-- Helper for `cummaxList`: running maximum continuing from `m`. -/
def cummaxAux (m : ℚ) : List ℚ → List ℚ
  | [] => []
  | e :: rest => max m e :: cummaxAux (max m e) rest

/-- Model of `Series.cummax()`. -/
def cummaxList : List ℚ → List ℚ
  | [] => []
  | e :: rest => e :: cummaxAux e rest

/-- Model of `Series.min()`; `0` on the empty list (pandas `NaN`), only reached
behind the nonempty-equity guard. -/
def listMin : List ℚ → ℚ
  | [] => 0
  | x :: xs => xs.foldl min x

/-- The performance report of `compute_metrics`, with the raw numeric value
of each field (the source formats them into strings for display). -/
structure Metrics where
  total_trades : ℕ
  win_rate : ℚ
  total_pnl : ℚ
  total_return : ℚ
  annual_return : ℝ
  max_drawdown : ℚ
  sharpe : ℝ
  calmar : EReal
  profit_factor : EReal
  avg_win : ℚ
  avg_loss : ℚ
  stop_outs : ℕ
  stop_out_rate : ℚ

/-- Model of `compute_metrics(trades_df, equity_df, config)`.  Returns `none` when
the source raises: `equity.iloc[-1]` on an empty equity curve
(`IndexError`), or the unguarded `stop_outs / total_trades` on a zero trade
count (`ZeroDivisionError`).  `⊤ : EReal` models `np.inf`.  A positive
loser count with a zero losing sum would give numpy `inf` for the profit
factor where rational division yields `0`; no claim touches that case. -/
noncomputable def computeMetrics (trades : List Trade) (equity : List ℚ)
    (cfg : Config) : Option Metrics :=
  if equity = [] ∨ trades = [] then none
  else
    let pnl := trades.map (·.pnl_usd)
    let total_trades := trades.length
    let wins := pnl.filter (fun x => 0 < x)
    let losses := pnl.filter (fun x => x ≤ 0)
    let winners := wins.length
    let losers := losses.length
    let win_rate : ℚ := if 0 < total_trades then (winners : ℚ) / total_trades else 0
    let total_pnl := pnl.sum
    let avg_win : ℚ := if 0 < winners then wins.sum / winners else 0
    let avg_loss : ℚ := if 0 < losers then losses.sum / losers else 0
    let profit_factor : EReal :=
      if 0 < losers then (((wins.sum / |losses.sum| : ℚ) : ℝ) : EReal) else ⊤
    let dd := List.zipWith (fun e m => (e - m) / m) equity (cummaxList equity)
    let max_drawdown := listMin dd
    let rets := pctChanges equity
    let sharpe : ℝ :=
      if 2 ≤ rets.length ∧ 0 < sampleVar rets
      then ((listMean rets : ℝ) / Real.sqrt ((sampleVar rets : ℝ))) * Real.sqrt 252
      else 0
    let annual_return : ℝ :=
      ((equity.getLastD 0 / equity.headD 0 : ℚ) : ℝ) ^ ((252 : ℝ) / (equity.length : ℝ)) - 1
    let calmar : EReal :=
      if max_drawdown ≠ 0 then ((annual_return / |((max_drawdown : ℚ) : ℝ)| : ℝ) : EReal) else ⊤
    let stop_outs := (trades.filter (·.stopped_out)).length
    let stop_out_rate : ℚ := (stop_outs : ℚ) / total_trades
    let total_return : ℚ := equity.getLastD 0 / cfg.initial_capital - 1
    some ⟨total_trades, win_rate, total_pnl, total_return, annual_return,
      max_drawdown, sharpe, calmar, profit_factor, avg_win, avg_loss,
      stop_outs, stop_out_rate⟩

/-- The errors a run can surface.  The source only ever raises `keyError`
(pandas `set_index('Date')` on an empty frame) or `divisionByZero`
(unreachable from `run_backtest` itself); `insufficientData` and
`invalidConfig` exist to state the spec's error taxonomy for comparison. -/
inductive Err where
  | insufficientData (nBars : ℕ)
  | invalidConfig (param : String)
  | keyError (key : String)
  | divisionByZero
deriving DecidableEq

/-- The dict returned by `run_backtest` (the `config` echo is omitted: it is
the unmodified input). -/
structure Output where
  trades : List Trade
  equity : List EquityPoint
  metrics : Metrics

/-- Model of `run_backtest(df, config)`.  With fewer than two bars the loop never
runs and `pd.DataFrame([]).set_index('Date')` raises a `KeyError`. -/
noncomputable def runBacktest (bars : List Bar) (cfg : Config) : Except Err Output :=
  let res := runPairs cfg cfg.initial_capital bars
  if res.2 = [] then Except.error (Err.keyError "Date")
  else
    match computeMetrics res.1 (res.2.map (·.equity)) cfg with
    | some m => Except.ok ⟨res.1, res.2, m⟩
    | none => Except.error Err.divisionByZero

/-- Boolean success test for `Except` results. -/
def isOkE {ε α : Type} : Except ε α → Bool
  | Except.ok _ => true
  | Except.error _ => false

/-! ### Concrete fixtures

The concrete scenario of spec §8: default configuration, a Long signal on
bar T, and a T+1 bar whose low pierces the stop. -/

/-- The source's default configuration (`BacktestConfig()`). -/
def cfg0 : Config := ⟨100000, 1/10, 5/1000, none, 1, 1⟩

/-- Signal bar T of the concrete scenario, carrying a Long signal. -/
def rowT : Bar := ⟨0, 11/10, 11/10, 11/10, 11/10, 1⟩

/-- A signal bar carrying a Short signal (`-1`). -/
def rowShort : Bar := ⟨0, 11/10, 11/10, 11/10, 11/10, -1⟩

/-- Trade bar T+1 of the concrete scenario:
open 1.1000, high 1.1020, low 1.0930, close 1.1010. -/
def nbT : Bar := ⟨1, 11/10, 1102/1000, 1093/1000, 1101/1000, 0⟩

/-- The trade the engine produces in the concrete scenario:
stop 1.0945 hit, exit at the stop, pnl −560/11 ≈ −50.91 USD. -/
def tradeC6 : Trade := ⟨1, 1, 11/10, 2189/2000, 2189/2000, -560/11, true, 100000/11⟩

/-- The equity point after the concrete-scenario trade settles:
100000 − 560/11 = 1099440/11 ≈ 99949.09. -/
def epC6 : EquityPoint := ⟨1, 1099440/11⟩

/-! ### Structural lemmas about the execution loop -/

theorem simStep_c6 : simStep cfg0 100000 rowT nbT = tradeC6 := by
  have hlow : decide ((1093/1000 : ℚ) ≤ 11/10 * (1 - 5/1000)) = true :=
    decide_eq_true (by norm_num)
  simp only [simStep, cfg0, rowT, nbT, pip, hlow, if_true]
  simp only [tradeC6, Trade.mk.injEq]
  norm_num

theorem runPairs_c6 :
    runPairs cfg0 cfg0.initial_capital [rowT, nbT] = ([tradeC6], [epC6]) := by
  have hcap : cfg0.initial_capital = 100000 := rfl
  simp only [runPairs, hcap, simStep_c6]
  have hpnl : tradeC6.pnl_usd = -560/11 := rfl
  simp only [hpnl, epC6, nbT, Prod.mk.injEq, List.cons.injEq, EquityPoint.mk.injEq]
  norm_num

theorem runPairs_fst_length (cfg : Config) :
    ∀ (bars : List Bar) (capital : ℚ),
      ((runPairs cfg capital bars).1).length = bars.length - 1 := by
  intro bars
  induction bars with
  | nil => intro capital; rfl
  | cons b tail ih =>
    intro capital
    cases tail with
    | nil => rfl
    | cons b2 rest =>
      simp only [runPairs, List.length_cons]
      rw [ih]
      simp

theorem runPairs_snd_length (cfg : Config) :
    ∀ (bars : List Bar) (capital : ℚ),
      ((runPairs cfg capital bars).2).length = bars.length - 1 := by
  intro bars
  induction bars with
  | nil => intro capital; rfl
  | cons b tail ih =>
    intro capital
    cases tail with
    | nil => rfl
    | cons b2 rest =>
      simp only [runPairs, List.length_cons]
      rw [ih]
      simp

/-- The sequence of equity values obtained by accumulating a pnl list onto a
starting capital; the shape of the equity curve the loop produces. -/
def equitiesFrom (capital : ℚ) : List ℚ → List ℚ
  | [] => []
  | p :: ps => (capital + p) :: equitiesFrom (capital + p) ps

theorem runPairs_equity_eq (cfg : Config) :
    ∀ (bars : List Bar) (capital : ℚ),
      ((runPairs cfg capital bars).2).map (·.equity) =
        equitiesFrom capital (((runPairs cfg capital bars).1).map (·.pnl_usd)) := by
  intro bars
  induction bars with
  | nil => intro capital; rfl
  | cons b tail ih =>
    intro capital
    cases tail with
    | nil => rfl
    | cons b2 rest =>
      simp only [runPairs, List.map_cons, equitiesFrom]
      rw [ih]

theorem equitiesFrom_length (ps : List ℚ) :
    ∀ capital : ℚ, (equitiesFrom capital ps).length = ps.length := by
  induction ps with
  | nil => intro capital; rfl
  | cons p tail ih => intro capital; simp [equitiesFrom, ih]

theorem equitiesFrom_getLast? (ps : List ℚ) :
    ∀ capital : ℚ, ps ≠ [] →
      (equitiesFrom capital ps).getLast? = some (capital + ps.sum) := by
  induction ps with
  | nil => intro capital h; exact absurd rfl h
  | cons p tail ih =>
    intro capital _
    cases tail with
    | nil => simp [equitiesFrom]
    | cons q rest =>
      have hne : (q :: rest) ≠ ([] : List ℚ) := by simp
      simp only [equitiesFrom, List.getLast?_cons_cons]
      rw [show equitiesFrom (capital + p + q) rest =
            equitiesFrom ((capital + p) + q) rest from rfl] at *
      have := ih (capital + p) hne
      simp only [equitiesFrom] at this
      rw [this]
      simp [add_assoc]

theorem equitiesFrom_getD_zero (ps : List ℚ) (capital : ℚ) (h : 0 < ps.length) :
    (equitiesFrom capital ps).getD 0 0 = capital + ps.getD 0 0 := by
  cases ps with
  | nil => simp at h
  | cons p tail => simp [equitiesFrom]

theorem equitiesFrom_getD_succ :
    ∀ (ps : List ℚ) (capital : ℚ) (i : ℕ), i + 1 < ps.length →
      (equitiesFrom capital ps).getD (i + 1) 0 =
        (equitiesFrom capital ps).getD i 0 + ps.getD (i + 1) 0 := by
  intro ps
  induction ps with
  | nil => intro capital i h; simp at h
  | cons p tail ih =>
    intro capital i h
    cases i with
    | zero =>
      have htail : 0 < tail.length := by
        simp only [List.length_cons] at h; omega
      simp only [equitiesFrom, List.getD_cons_succ, List.getD_cons_zero]
      exact equitiesFrom_getD_zero tail (capital + p) htail
    | succ j =>
      have hj : j + 1 < tail.length := by
        simp only [List.length_cons] at h; omega
      simp only [equitiesFrom, List.getD_cons_succ]
      exact ih (capital + p) j hj

/-! ### Inversion and success lemmas for `runBacktest` -/

theorem runBacktest_ok_inv (bars : List Bar) (cfg : Config) (out : Output)
    (h : runBacktest bars cfg = Except.ok out) :
    out.trades = (runPairs cfg cfg.initial_capital bars).1 ∧
    out.equity = (runPairs cfg cfg.initial_capital bars).2 ∧
    (runPairs cfg cfg.initial_capital bars).2 ≠ [] ∧
    computeMetrics (runPairs cfg cfg.initial_capital bars).1
      (((runPairs cfg cfg.initial_capital bars).2).map (·.equity)) cfg =
        some out.metrics := by
  simp only [runBacktest] at h
  split at h
  · exact absurd h (by simp)
  · rename_i hne
    split at h
    · rename_i m hm
      cases h
      exact ⟨rfl, rfl, hne, hm⟩
    · exact absurd h (by simp)

theorem runBacktest_ok_of_two_bars (bars : List Bar) (cfg : Config)
    (h2 : 2 ≤ bars.length) :
    ∃ out, runBacktest bars cfg = Except.ok out := by
  have hsnd := runPairs_snd_length cfg bars cfg.initial_capital
  have hfst := runPairs_fst_length cfg bars cfg.initial_capital
  have hne2 : (runPairs cfg cfg.initial_capital bars).2 ≠ [] := by
    intro hnil
    rw [hnil] at hsnd
    simp at hsnd
    omega
  have hne1 : (runPairs cfg cfg.initial_capital bars).1 ≠ [] := by
    intro hnil
    rw [hnil] at hfst
    simp at hfst
    omega
  have hguard : ¬((((runPairs cfg cfg.initial_capital bars).2).map
      (·.equity) : List ℚ) = [] ∨ (runPairs cfg cfg.initial_capital bars).1 = []) := by
    simp [hne1, hne2]
  have hm : ∃ m, computeMetrics (runPairs cfg cfg.initial_capital bars).1
      (((runPairs cfg cfg.initial_capital bars).2).map (·.equity)) cfg = some m := by
    simp only [computeMetrics, if_neg hguard]
    exact ⟨_, rfl⟩
  obtain ⟨m, hm⟩ := hm
  refine ⟨⟨(runPairs cfg cfg.initial_capital bars).1,
    (runPairs cfg cfg.initial_capital bars).2, m⟩, ?_⟩
  simp only [runBacktest, if_neg hne2, hm]

/-- A throwaway report used as the fallback of `outC6`'s match. -/
noncomputable def dummyMetrics : Metrics := ⟨0, 0, 0, 0, 0, 0, 0, 0, 0, 0, 0, 0, 0⟩

/-- The output the engine produces on the concrete scenario. -/
noncomputable def outC6 : Output :=
  match runBacktest [rowT, nbT] cfg0 with
  | Except.ok o => o
  | Except.error _ => ⟨[], [], dummyMetrics⟩

theorem runBacktest_c6_ok : runBacktest [rowT, nbT] cfg0 = Except.ok outC6 := by
  obtain ⟨out, hok⟩ := runBacktest_ok_of_two_bars [rowT, nbT] cfg0 (by norm_num)
  rw [hok]
  simp only [outC6, hok]

theorem outC6_trades : outC6.trades = [tradeC6] := by
  have h := (runBacktest_ok_inv _ _ _ runBacktest_c6_ok).1
  rw [h, runPairs_c6]

theorem outC6_equity : outC6.equity = [epC6] := by
  have h := (runBacktest_ok_inv _ _ _ runBacktest_c6_ok).2.1
  rw [h, runPairs_c6]

theorem computeMetrics_c6_annual (m : Metrics)
    (hm : computeMetrics [tradeC6] [1099440/11] cfg0 = some m) :
    m.annual_return = 0 := by
  have hguard : ¬(([1099440/11] : List ℚ) = [] ∨ ([tradeC6] : List Trade) = []) := by
    simp
  simp only [computeMetrics, if_neg hguard, Option.some.injEq] at hm
  rw [← hm]
  have hq : ((1099440/11 : ℚ) / (1099440/11 : ℚ)) = 1 := by norm_num
  simp only [List.getLastD, List.headD, hq]
  norm_num [Real.one_rpow]

/-! ### The spec's claims, stated as written

Each `specClaimCx` renders the spec's sentence over the source embedding,
so that a claim the code violates can be refuted by proving the negation.
These definitions follow the spec's words, not the source. -/

/-- Modelled from the spec: the annualized return uses the config's
`initial_capital` (the equity immediately preceding the first trade) as the
base of the ratio, with `n` = number of trades. -/
def specClaimC1 : Prop :=
  ∀ (bars : List Bar) (cfg : Config) (out : Output),
    runBacktest bars cfg = Except.ok out → 1 ≤ out.trades.length →
      out.metrics.annual_return =
        (((out.equity.map (·.equity)).getLastD 0 / cfg.initial_capital : ℚ) : ℝ) ^
          ((252 : ℝ) / (out.trades.length : ℝ)) - 1

/-- Modelled from the spec: fewer than two bars fail with an
`InsufficientData` error identifying the bar count. -/
def specClaimC2 : Prop :=
  ∀ (bars : List Bar) (cfg : Config), bars.length < 2 →
    ∃ n, runBacktest bars cfg = Except.error (Err.insufficientData n)

/-- Modelled from the spec: a config outside its valid domain fails at
engine entry with an `InvalidConfig` error. -/
def specClaimC3 : Prop :=
  ∀ (bars : List Bar) (cfg : Config),
    (cfg.initial_capital ≤ 0 ∨ cfg.position_size_pct ≤ 0 ∨
      1 < cfg.position_size_pct ∨ cfg.stop_loss_pct < 0 ∨ cfg.leverage ≤ 0) →
      ∃ s, runBacktest bars cfg = Except.error (Err.invalidConfig s)

/-- Modelled from the spec: the report is defined for every ledger,
including an empty one, with each ratio/rate guard producing its substitute
value. -/
def specClaimC4 : Prop :=
  ∀ (trades : List Trade) (equity : List ℚ) (cfg : Config),
    ∃ m, computeMetrics trades equity cfg = some m ∧
      (trades.length = 0 → m.win_rate = 0) ∧
      ((trades.map (·.pnl_usd)).filter (fun x => 0 < x) = [] → m.avg_win = 0) ∧
      ((trades.map (·.pnl_usd)).filter (fun x => x ≤ 0) = [] →
        m.avg_loss = 0 ∧ m.profit_factor = ⊤) ∧
      (sampleVar (pctChanges equity) = 0 → m.sharpe = 0) ∧
      (m.max_drawdown = 0 → m.calmar = ⊤)

/-- Modelled from the spec (implicit claim): positive capital at entry, a
positive entry price, and a positive stop fraction or transaction cost
force every stopped-out trade to a strictly negative pnl. -/
def specClaimC10 : Prop :=
  ∀ (cfg : Config) (capital : ℚ) (row nextRow : Bar),
    0 < capital → 0 < nextRow.open_ →
    (0 < cfg.stop_loss_pct ∨ 0 < cfg.transaction_cost_pips * pip) →
    (simStep cfg capital row nextRow).stopped_out = true →
    (simStep cfg capital row nextRow).pnl_usd < 0

/-- A config violating every bound of the spec's `InvalidConfig` domain
check on `initial_capital` (negative capital). -/
def cfgBad : Config := ⟨-1, 1/10, 5/1000, none, 1, 1⟩

/-! ### Claim theorems -/

/-- Claim C2, counterexample: on a one-bar input the engine does fail, but
with the pandas `KeyError` raised while building the output frame, not with
an `InsufficientData` error naming the bar count. -/
theorem claimC2_cex : ¬specClaimC2 := by
  intro h
  obtain ⟨n, hn⟩ := h [rowT] cfg0 (by norm_num)
  have hrun : runBacktest [rowT] cfg0 = Except.error (Err.keyError "Date") := by
    simp [runBacktest, runPairs]
  rw [hrun] at hn
  simp at hn

/-- Claim C2 as amended: with fewer than two bars no trade and no equity
point is produced and the run fails, but the surfaced error is the
`KeyError` from output-frame construction rather than an `InsufficientData`
error identifying the bar count. -/
theorem claimC2_amended (bars : List Bar) (cfg : Config) (h : bars.length < 2) :
    runBacktest bars cfg = Except.error (Err.keyError "Date") ∧
    runPairs cfg cfg.initial_capital bars = ([], []) := by
  cases bars with
  | nil => exact ⟨by simp [runBacktest, runPairs], rfl⟩
  | cons b tail =>
    cases tail with
    | nil => exact ⟨by simp [runBacktest, runPairs], rfl⟩
    | cons b2 rest => simp at h; omega

/-- Witness for C2's amended theorem at a concrete one-bar input. -/
theorem claimC2_witness :
    runBacktest [rowT] cfg0 = Except.error (Err.keyError "Date") ∧
    runPairs cfg0 cfg0.initial_capital [rowT] = ([], []) :=
  claimC2_amended [rowT] cfg0 (by norm_num)

/-- Claim C3, counterexample: the engine accepts a config with negative
initial capital and completes the run instead of failing with
`InvalidConfig`. -/
theorem claimC3_cex : ¬specClaimC3 := by
  intro h
  obtain ⟨s, hs⟩ := h [rowT, nbT] cfgBad (Or.inl (by norm_num [cfgBad]))
  obtain ⟨out, hok⟩ := runBacktest_ok_of_two_bars [rowT, nbT] cfgBad (by norm_num)
  rw [hok] at hs
  simp at hs

/-- Claim C3 as amended: the engine performs no config validation; any
config, including one outside the spec's valid domain, is accepted and the
simulation runs to completion with a full ledger. -/
theorem claimC3_amended (bars : List Bar) (cfg : Config) (h2 : 2 ≤ bars.length)
    (_hinv : cfg.initial_capital ≤ 0 ∨ cfg.position_size_pct ≤ 0 ∨
      1 < cfg.position_size_pct ∨ cfg.stop_loss_pct < 0 ∨ cfg.leverage ≤ 0) :
    isOkE (runBacktest bars cfg) = true ∧
    ((runPairs cfg cfg.initial_capital bars).1).length = bars.length - 1 := by
  obtain ⟨out, hok⟩ := runBacktest_ok_of_two_bars bars cfg h2
  exact ⟨by rw [hok]; rfl, runPairs_fst_length cfg bars cfg.initial_capital⟩

/-- Witness for C3's amended theorem: a negative-capital config is accepted
on a two-bar input. -/
theorem claimC3_witness :
    isOkE (runBacktest [rowT, nbT] cfgBad) = true ∧
    ((runPairs cfgBad cfgBad.initial_capital [rowT, nbT]).1).length =
      [rowT, nbT].length - 1 :=
  claimC3_amended [rowT, nbT] cfgBad (by norm_num) (Or.inl (by norm_num [cfgBad]))

/-- Claim C5: a Long trade (signal `+1`) stops at `entry * (1 - pct)` when
the next bar's low reaches it; any other signal is Short, stopping at
`entry * (1 + pct)` when the next bar's high reaches it; the exit price is
the stop when stopped out and the next close otherwise. -/
theorem claimC5 (cfg : Config) (capital : ℚ) (row nextRow : Bar) :
    (simStep cfg capital row nextRow).entry_price = nextRow.open_ ∧
    (row.signal = 1 →
      (simStep cfg capital row nextRow).stop_loss_price =
          nextRow.open_ * (1 - cfg.stop_loss_pct) ∧
        ((simStep cfg capital row nextRow).stopped_out = true ↔
          nextRow.low ≤ (simStep cfg capital row nextRow).stop_loss_price)) ∧
    (row.signal ≠ 1 →
      (simStep cfg capital row nextRow).stop_loss_price =
          nextRow.open_ * (1 + cfg.stop_loss_pct) ∧
        ((simStep cfg capital row nextRow).stopped_out = true ↔
          nextRow.high ≥ (simStep cfg capital row nextRow).stop_loss_price)) ∧
    (simStep cfg capital row nextRow).exit_price =
      (if (simStep cfg capital row nextRow).stopped_out = true
        then (simStep cfg capital row nextRow).stop_loss_price else nextRow.close) := by
  by_cases hs : row.signal = 1
  · simp [simStep, hs]
  · simp [simStep, hs]

/-- Witness for C5 at concrete Long and Short inputs. -/
theorem claimC5_witness :
    (simStep cfg0 100000 rowT nbT).stop_loss_price =
        nbT.open_ * (1 - cfg0.stop_loss_pct) ∧
    (simStep cfg0 100000 rowShort nbT).stop_loss_price =
        nbT.open_ * (1 + cfg0.stop_loss_pct) :=
  ⟨((claimC5 cfg0 100000 rowT nbT).2.1 (by norm_num [rowT])).1,
   ((claimC5 cfg0 100000 rowShort nbT).2.2.1 (by norm_num [rowShort])).1⟩

/-- Claim C6: the concrete scenario of spec §8 — position value 10000 USD,
position size 100000/11 ≈ 9090.909 EUR, stop at 1.0945 which the low
1.0930 triggers, exit at the stop, price move −0.0056, pnl −560/11 ≈
−50.91 USD, equity 1099440/11 ≈ 99949.09 USD. -/
theorem claimC6 :
    100000 * cfg0.position_size_pct * cfg0.leverage = 10000 ∧
    tradeC6.position_size = 100000 / 11 ∧
    9090.909 ≤ tradeC6.position_size ∧ tradeC6.position_size < 9090.9091 ∧
    tradeC6.stop_loss_price = 1.0945 ∧
    tradeC6.stopped_out = true ∧
    tradeC6.exit_price = 1.0945 ∧
    tradeC6.exit_price - tradeC6.entry_price - cfg0.transaction_cost_pips * pip
      = -0.0056 ∧
    tradeC6.pnl_usd = -560 / 11 ∧
    -50.91 < tradeC6.pnl_usd ∧ tradeC6.pnl_usd < -50.90 ∧
    runPairs cfg0 cfg0.initial_capital [rowT, nbT] = ([tradeC6], [epC6]) ∧
    99949.09 < epC6.equity ∧ epC6.equity < 99949.091 := by
  refine ⟨by norm_num [cfg0], by norm_num [tradeC6], by norm_num [tradeC6],
    by norm_num [tradeC6], by norm_num [tradeC6], rfl, by norm_num [tradeC6],
    by norm_num [tradeC6, cfg0, pip], by norm_num [tradeC6],
    by norm_num [tradeC6], by norm_num [tradeC6], runPairs_c6,
    by norm_num [epC6], by norm_num [epC6]⟩

/-- Claim C7 (capital conservation): the final equity point equals
`initial_capital` plus the summed pnl of the ledger, the first equity point
is `initial_capital` plus the first trade's pnl, and every later equity
point is the previous one plus the corresponding trade's pnl. -/
theorem claimC7 (bars : List Bar) (cfg : Config) (out : Output)
    (h : runBacktest bars cfg = Except.ok out) :
    (out.equity.map (·.equity)).getLast? =
      some (cfg.initial_capital + (out.trades.map (·.pnl_usd)).sum) ∧
    (out.equity.map (·.equity)).getD 0 0 =
      cfg.initial_capital + (out.trades.map (·.pnl_usd)).getD 0 0 ∧
    ∀ i, i + 1 < out.trades.length →
      (out.equity.map (·.equity)).getD (i + 1) 0 =
        (out.equity.map (·.equity)).getD i 0 +
          (out.trades.map (·.pnl_usd)).getD (i + 1) 0 := by
  obtain ⟨htr, heq, hne, -⟩ := runBacktest_ok_inv bars cfg out h
  have hfst := runPairs_fst_length cfg bars cfg.initial_capital
  have hsnd := runPairs_snd_length cfg bars cfg.initial_capital
  have hlenpos : 0 < ((runPairs cfg cfg.initial_capital bars).1).length := by
    rw [hfst, ← hsnd]
    exact List.length_pos.mpr hne
  have hps : ((runPairs cfg cfg.initial_capital bars).1).map (·.pnl_usd) ≠ [] := by
    intro hnil
    simp only [List.map_eq_nil_iff] at hnil
    rw [hnil] at hlenpos
    simp at hlenpos
  rw [htr, heq, runPairs_equity_eq]
  refine ⟨equitiesFrom_getLast? _ cfg.initial_capital hps, ?_, ?_⟩
  · exact equitiesFrom_getD_zero _ cfg.initial_capital (by simpa using hlenpos)
  · intro i hi
    exact equitiesFrom_getD_succ _ cfg.initial_capital i (by simpa using hi)

/-- Witness for C7: in the concrete scenario the final equity is the
initial capital plus the single trade's pnl. -/
theorem claimC7_witness :
    (outC6.equity.map (·.equity)).getLast? =
      some (cfg0.initial_capital + (outC6.trades.map (·.pnl_usd)).sum) :=
  (claimC7 [rowT, nbT] cfg0 outC6 runBacktest_c6_ok).1

/-- Claim C8 (sequence length): over any input of at least two bars the run
succeeds and trade ledger and equity curve both have exactly one entry per
adjacent bar pair, `len(bars) - 1` in total. -/
theorem claimC8 (bars : List Bar) (cfg : Config) (h2 : 2 ≤ bars.length) :
    ((runPairs cfg cfg.initial_capital bars).1).length = bars.length - 1 ∧
    ((runPairs cfg cfg.initial_capital bars).2).length = bars.length - 1 ∧
    isOkE (runBacktest bars cfg) = true ∧
    ∀ out, runBacktest bars cfg = Except.ok out →
      out.trades.length = bars.length - 1 ∧ out.equity.length = bars.length - 1 := by
  refine ⟨runPairs_fst_length cfg bars cfg.initial_capital,
    runPairs_snd_length cfg bars cfg.initial_capital, ?_, ?_⟩
  · obtain ⟨out, hok⟩ := runBacktest_ok_of_two_bars bars cfg h2
    rw [hok]; rfl
  · intro out hok
    obtain ⟨htr, heq, -, -⟩ := runBacktest_ok_inv bars cfg out hok
    rw [htr, heq]
    exact ⟨runPairs_fst_length cfg bars cfg.initial_capital,
      runPairs_snd_length cfg bars cfg.initial_capital⟩

/-- Witness for C8 on the concrete two-bar input. -/
theorem claimC8_witness :
    ((runPairs cfg0 cfg0.initial_capital [rowT, nbT]).1).length =
      [rowT, nbT].length - 1 ∧
    isOkE (runBacktest [rowT, nbT] cfg0) = true ∧
    outC6.trades.length = [rowT, nbT].length - 1 := by
  have h := claimC8 [rowT, nbT] cfg0 (by norm_num)
  exact ⟨h.1, h.2.2.1, (h.2.2.2 outC6 runBacktest_c6_ok).1⟩

theorem runPairs_tp_irrel (i p s tc l : ℚ) (a b : Option ℚ) :
    ∀ (bars : List Bar) (capital : ℚ),
      runPairs ⟨i, p, s, a, tc, l⟩ capital bars =
        runPairs ⟨i, p, s, b, tc, l⟩ capital bars := by
  intro bars
  induction bars with
  | nil => intro capital; rfl
  | cons hd tail ih =>
    intro capital
    cases tail with
    | nil => rfl
    | cons b2 rest =>
      simp only [runPairs]
      have hstep : simStep ⟨i, p, s, a, tc, l⟩ capital hd b2 =
          simStep ⟨i, p, s, b, tc, l⟩ capital hd b2 := rfl
      rw [hstep, ih]

theorem computeMetrics_tp_irrel (i p s tc l : ℚ) (a b : Option ℚ)
    (trades : List Trade) (equity : List ℚ) :
    computeMetrics trades equity ⟨i, p, s, a, tc, l⟩ =
      computeMetrics trades equity ⟨i, p, s, b, tc, l⟩ := rfl

/-- Claim C9 (noninterference of `take_profit_pct`): two configs equal in
every field but `take_profit_pct` yield identical runs — same trade
ledger, same equity curve, same metrics. -/
theorem claimC9 (bars : List Bar) (cfgA cfgB : Config)
    (h1 : cfgA.initial_capital = cfgB.initial_capital)
    (h2 : cfgA.position_size_pct = cfgB.position_size_pct)
    (h3 : cfgA.stop_loss_pct = cfgB.stop_loss_pct)
    (h4 : cfgA.transaction_cost_pips = cfgB.transaction_cost_pips)
    (h5 : cfgA.leverage = cfgB.leverage) :
    runBacktest bars cfgA = runBacktest bars cfgB := by
  obtain ⟨i1, p1, s1, a, tc1, l1⟩ := cfgA
  obtain ⟨i2, p2, s2, b, tc2, l2⟩ := cfgB
  have e1 : i1 = i2 := h1
  have e2 : p1 = p2 := h2
  have e3 : s1 = s2 := h3
  have e4 : tc1 = tc2 := h4
  have e5 : l1 = l2 := h5
  subst e1; subst e2; subst e3; subst e4; subst e5
  simp only [runBacktest]
  rw [runPairs_tp_irrel i1 p1 s1 tc1 l1 a b,
    computeMetrics_tp_irrel i1 p1 s1 tc1 l1 a b]

/-- A config equal to `cfg0` except for a take-profit value. -/
def cfgTpB : Config := ⟨100000, 1/10, 5/1000, some (1/100), 1, 1⟩

/-- Witness for C9: the default config with and without a take-profit value
produce the same run on the concrete bars. -/
theorem claimC9_witness :
    runBacktest [rowT, nbT] cfg0 = runBacktest [rowT, nbT] cfgTpB :=
  claimC9 [rowT, nbT] cfg0 cfgTpB rfl rfl rfl rfl rfl

/-- Claim C4, counterexample: on an empty ledger `compute_metrics` produces
no report at all — `equity.iloc[-1]` and the unguarded stop-out-rate
division fail — instead of a report of substitute values. -/
theorem claimC4_cex : ¬specClaimC4 := by
  intro h
  obtain ⟨m, hm, -⟩ := h [] [] cfg0
  simp [computeMetrics] at hm

/-- Claim C4 as amended: for a nonempty ledger and equity curve the report
exists and every listed guard holds (average win and loss are `0` on empty
winner/loser sets, the profit factor is the `⊤` sentinel with no losers,
Sharpe is `0` at zero return variance, Calmar is `⊤` at zero drawdown, the
win rate is `winners / n`), and the stop-out rate is computed as
`stop_outs / n` without a guard — so an empty ledger yields no report
(`none`) rather than guarded substitute values. -/
theorem claimC4_amended (trades : List Trade) (equity : List ℚ) (cfg : Config)
    (ht : trades ≠ []) (he : equity ≠ []) :
    (computeMetrics trades equity cfg).isSome = true ∧
    (∀ (e : List ℚ) (c : Config), computeMetrics [] e c = none) ∧
    ∀ m, computeMetrics trades equity cfg = some m →
      ((trades.map (·.pnl_usd)).filter (fun x => 0 < x) = [] → m.avg_win = 0) ∧
      ((trades.map (·.pnl_usd)).filter (fun x => x ≤ 0) = [] →
        m.avg_loss = 0 ∧ m.profit_factor = ⊤) ∧
      (sampleVar (pctChanges equity) = 0 → m.sharpe = 0) ∧
      (m.max_drawdown = 0 → m.calmar = ⊤) ∧
      m.win_rate = ((((trades.map (·.pnl_usd)).filter (fun x => 0 < x)).length : ℚ) /
        (trades.length : ℚ)) ∧
      m.stop_out_rate = (((trades.filter (·.stopped_out)).length : ℚ) /
        (trades.length : ℚ)) := by
  have hguard : ¬(equity = [] ∨ trades = []) := by simp [ht, he]
  refine ⟨by simp [computeMetrics, hguard], fun e c => by simp [computeMetrics], ?_⟩
  intro m hm
  simp only [computeMetrics, if_neg hguard, Option.some.injEq] at hm
  subst hm
  have hlen : 0 < trades.length := List.length_pos.mpr ht
  refine ⟨fun hw => ?_, fun hl => ?_, fun hv => ?_, fun hdd => ?_, ?_, ?_⟩
  · simp [hw]
  · simp [hl]
  · simp [hv]
  · simp only at hdd
    simp [hdd]
  · simp [if_pos hlen]
  · rfl

/-- Witness for C4's amended theorem on the concrete one-trade ledger. -/
theorem claimC4_witness :
    (computeMetrics [tradeC6] [1099440/11] cfg0).isSome = true :=
  (claimC4_amended [tradeC6] [1099440/11] cfg0 (by simp) (by simp)).1

/-- A config whose position fraction is zero: accepted by the engine, and
the source of C10's failure (zero position size makes every pnl zero). -/
def cfgZeroPos : Config := ⟨100000, 0, 5/1000, none, 1, 1⟩

/-- Claim C10, counterexample: with a zero position fraction the engine
still books a stopped-out trade, but its pnl is `0`, not strictly
negative, although capital, entry price and stop fraction are positive. -/
theorem claimC10_cex : ¬specClaimC10 := by
  intro h
  have hlow : decide ((1093/1000 : ℚ) ≤ 11/10 * (1 - 5/1000)) = true :=
    decide_eq_true (by norm_num)
  have hstop : (simStep cfgZeroPos 100000 rowT nbT).stopped_out = true := by
    simp [simStep, cfgZeroPos, rowT, nbT, hlow]
  have h1 := h cfgZeroPos 100000 rowT nbT (by norm_num) (by norm_num [nbT])
    (Or.inl (by norm_num [cfgZeroPos])) hstop
  have h2 : (simStep cfgZeroPos 100000 rowT nbT).pnl_usd = 0 := by
    simp [simStep, cfgZeroPos, rowT, nbT]
  rw [h2] at h1
  exact absurd h1 (by norm_num)

/-- Claim C10 as amended: a stopped-out trade has strictly negative pnl
provided additionally that `position_size_pct * leverage` is positive and
that `stop_loss_pct` and `transaction_cost_pips` are nonnegative (the
engine validates none of these, so they must be assumed). -/
theorem claimC10_amended (cfg : Config) (capital : ℚ) (row nextRow : Bar)
    (hcap : 0 < capital) (hentry : 0 < nextRow.open_)
    (hpl : 0 < cfg.position_size_pct * cfg.leverage)
    (hsl : 0 ≤ cfg.stop_loss_pct) (htc : 0 ≤ cfg.transaction_cost_pips)
    (hone : 0 < cfg.stop_loss_pct ∨ 0 < cfg.transaction_cost_pips * pip)
    (hstop : (simStep cfg capital row nextRow).stopped_out = true) :
    (simStep cfg capital row nextRow).pnl_usd < 0 := by
  have hps : 0 < capital * cfg.position_size_pct * cfg.leverage / nextRow.open_ := by
    apply div_pos _ hentry
    have : capital * cfg.position_size_pct * cfg.leverage =
        capital * (cfg.position_size_pct * cfg.leverage) := by ring
    rw [this]
    exact mul_pos hcap hpl
  have hcost : 0 ≤ cfg.transaction_cost_pips * pip :=
    mul_nonneg htc (by norm_num [pip])
  by_cases hs : row.signal = 1
  · simp only [simStep, if_pos hs] at hstop ⊢
    rw [if_pos hstop]
    apply mul_neg_of_pos_of_neg hps
    rcases hone with hslp | hc
    · have h1 : 0 < nextRow.open_ * cfg.stop_loss_pct := mul_pos hentry hslp
      nlinarith
    · nlinarith [mul_nonneg hentry.le hsl]
  · simp only [simStep, if_neg hs] at hstop ⊢
    rw [if_pos hstop]
    apply mul_neg_of_pos_of_neg hps
    rcases hone with hslp | hc
    · have h1 : 0 < nextRow.open_ * cfg.stop_loss_pct := mul_pos hentry hslp
      nlinarith
    · nlinarith [mul_nonneg hentry.le hsl]

/-- Witness for C10's amended theorem: the concrete stopped-out Long trade
loses money. -/
theorem claimC10_witness : (simStep cfg0 100000 rowT nbT).pnl_usd < 0 :=
  claimC10_amended cfg0 100000 rowT nbT (by norm_num) (by norm_num [nbT])
    (by norm_num [cfg0]) (by norm_num [cfg0]) (by norm_num [cfg0])
    (Or.inl (by norm_num [cfg0])) (by rw [simStep_c6]; rfl)

/-- Claim C1, counterexample: on the concrete one-trade run the reported
annualized return is `(final / first_equity_point)^252 - 1 = 0`, while the
spec's formula with `initial_capital` as the base gives a strictly
negative value. -/
theorem claimC1_cex : ¬specClaimC1 := by
  intro h
  have hn : 1 ≤ outC6.trades.length := by rw [outC6_trades]; norm_num
  have h1 := h [rowT, nbT] cfg0 outC6 runBacktest_c6_ok hn
  have hann : outC6.metrics.annual_return = 0 := by
    apply computeMetrics_c6_annual
    have hm := (runBacktest_ok_inv _ _ _ runBacktest_c6_ok).2.2.2
    rw [runPairs_c6] at hm
    simpa [epC6] using hm
  rw [hann, outC6_trades, outC6_equity] at h1
  have hx : ((((List.map (fun x => x.equity) [epC6]).getLastD 0) /
      cfg0.initial_capital : ℚ) : ℝ) = ((1099440/1100000 : ℚ) : ℝ) := by
    norm_num [epC6, cfg0]
  have he : ((252 : ℝ) / ((([tradeC6] : List Trade).length : ℕ) : ℝ)) =
      ((252 : ℕ) : ℝ) := by norm_num
  rw [hx, he, Real.rpow_natCast] at h1
  have hlt : ((1099440/1100000 : ℚ) : ℝ) ^ (252 : ℕ) < 1 := by
    have hb0 : (0 : ℝ) ≤ ((1099440/1100000 : ℚ) : ℝ) := by norm_num
    have hb1 : ((1099440/1100000 : ℚ) : ℝ) < 1 := by norm_num
    exact pow_lt_one₀ hb0 hb1 (by norm_num)
  linarith

/-- Claim C1 as amended: the annualized return is
`(final_equity / first_equity)^(252 / n) - 1` where `first_equity` is the
first point of the equity curve (the equity after the first trade
settles), not the config's `initial_capital`; `n` is the trade count. -/
theorem claimC1_amended (bars : List Bar) (cfg : Config) (out : Output)
    (h : runBacktest bars cfg = Except.ok out) (_hn : 1 ≤ out.trades.length) :
    out.metrics.annual_return =
      (((out.equity.map (·.equity)).getLastD 0 /
        (out.equity.map (·.equity)).headD 0 : ℚ) : ℝ) ^
        ((252 : ℝ) / (out.trades.length : ℝ)) - 1 := by
  obtain ⟨htr, heq, hne, hm⟩ := runBacktest_ok_inv bars cfg out h
  have hne1 : (runPairs cfg cfg.initial_capital bars).1 ≠ [] := by
    intro hnil
    have hf := runPairs_fst_length cfg bars cfg.initial_capital
    have hs := runPairs_snd_length cfg bars cfg.initial_capital
    rw [hnil] at hf
    simp only [List.length_nil] at hf
    have := List.length_pos.mpr hne
    omega
  have hguard : ¬((((runPairs cfg cfg.initial_capital bars).2).map
      (·.equity) : List ℚ) = [] ∨ (runPairs cfg cfg.initial_capital bars).1 = []) := by
    simp [hne, hne1]
  have hlen : (((runPairs cfg cfg.initial_capital bars).2).map (·.equity)).length =
      out.trades.length := by
    rw [htr, List.length_map, runPairs_snd_length, runPairs_fst_length]
  simp only [computeMetrics, if_neg hguard, Option.some.injEq] at hm
  rw [← hm, heq, ← hlen]

/-- Witness for C1's amended theorem on the concrete run. -/
theorem claimC1_amended_witness :
    outC6.metrics.annual_return =
      (((outC6.equity.map (·.equity)).getLastD 0 /
        (outC6.equity.map (·.equity)).headD 0 : ℚ) : ℝ) ^
        ((252 : ℝ) / (outC6.trades.length : ℝ)) - 1 :=
  claimC1_amended [rowT, nbT] cfg0 outC6 runBacktest_c6_ok
    (by rw [outC6_trades]; norm_num)

end Backtesting
